import Mathlib

/-!
Verification development for the nfc-offer tag-writing tool.

The Python source is embedded shallowly:

* Tag memory is a page-indexed map `Mem : Nat → List Nat` (4 bytes per page).
* The reader transport is an environment `Env` of fixed per-page behaviours
  (`ok` = command succeeds, `sfail` = bad status word so the call reports
  failure, `exn` = the transport raises an exception).
* Every reader-facing operation is a computation `M α` threading the memory
  and recording a trace of page reads/writes; Python exceptions are the
  `Except` layer (`Exn.tagLocked` models `TagLockedException`, `Exn.nfcErr`
  models `NFCError`-style transport exceptions, `Exn.writeErr` models
  `WriteError`, which no code path raises).
* Python `str` payloads are modelled as `List Char` restricted to ASCII;
  `asciiEncode`/`asciiDecode?` model UTF-8 encode/decode on that fragment
  (theorems about decoded text carry explicit ASCII hypotheses).
-/

namespace NfcOffer

abbrev Bytes := List Nat

/-- Behaviour of one transport command: success, status failure, or a raised
transport exception. -/
inductive IOBeh where
  | ok
  | sfail
  | exn
deriving DecidableEq

/-- Python exceptions relevant to the embedded control flow. -/
inductive Exn where
  | tagLocked
  | nfcErr
  | writeErr
deriving DecidableEq

/-- Trace events: a page read or an attempted page write. -/
inductive Ev where
  | rd (page : Nat)
  | wr (page : Nat) (data : Bytes)
deriving DecidableEq

/-- Fixed transport behaviour for a run: per-page read/write outcomes plus
the UID answer. -/
structure Env where
  readB : Nat → IOBeh
  writeB : Nat → IOBeh
  uidB : IOBeh
  uid : Bytes

/-- Tag memory: page number to page contents. -/
abbrev Mem := Nat → Bytes

/-- Stateful, exception-raising, trace-recording computations. -/
def M (α : Type) : Type := Env → Mem → Except Exn α × Mem × List Ev

def Mpure {α : Type} (a : α) : M α := fun _ mem => (.ok a, mem, [])

def Mbind {α β : Type} (m : M α) (f : α → M β) : M β := fun env mem =>
  match m env mem with
  | (.ok a, mem1, t1) =>
      match f a env mem1 with
      | (r, mem2, t2) => (r, mem2, t1 ++ t2)
  | (.error e, mem1, t1) => (.error e, mem1, t1)

instance : Monad M where
  pure := Mpure
  bind := Mbind

/-- Raise a Python exception. -/
def Mraise {α : Type} (e : Exn) : M α := fun _ mem => (.error e, mem, [])

/-- Python `try/except Exception` with a handler body. -/
def catchAll {α : Type} (m : M α) (h : M α) : M α := fun env mem =>
  match m env mem with
  | (.ok a, mem1, t1) => (.ok a, mem1, t1)
  | (.error _, mem1, t1) =>
      match h env mem1 with
      | (r, mem2, t2) => (r, mem2, t1 ++ t2)

/-- Python `try/except TagLockedException: raise / except Exception: handler`:
the tag-locked exception is re-raised, every other exception is handled. -/
def catchOtherThanLocked {α : Type} (m : M α) (h : M α) : M α := fun env mem =>
  match m env mem with
  | (.ok a, mem1, t1) => (.ok a, mem1, t1)
  | (.error .tagLocked, mem1, t1) => (.error .tagLocked, mem1, t1)
  | (.error _, mem1, t1) =>
      match h env mem1 with
      | (r, mem2, t2) => (r, mem2, t1 ++ t2)

/-- NFCReader.read_page: returns the page bytes, or None on a status failure,
or raises on a transport exception. -/
def read_page (p : Nat) : M (Option Bytes) := fun env mem =>
  match env.readB p with
  | .ok => (.ok (some (mem p)), mem, [.rd p])
  | .sfail => (.ok none, mem, [.rd p])
  | .exn => (.error .nfcErr, mem, [.rd p])

/-- NFCReader.write_page: writes one page, returning success, or raises on a
transport exception. -/
def write_page (p : Nat) (d : Bytes) : M Bool := fun env mem =>
  match env.writeB p with
  | .ok => (.ok true, fun q => if q = p then d else mem q, [.wr p d])
  | .sfail => (.ok false, mem, [.wr p d])
  | .exn => (.error .nfcErr, mem, [.wr p d])

/-- NFCReader.read_tag_uid: the GET_UID command. -/
def read_tag_uid : M (Option Bytes) := fun env mem =>
  match env.uidB with
  | .ok => (.ok (some env.uid), mem, [])
  | .sfail => (.ok none, mem, [])
  | .exn => (.error .nfcErr, mem, [])

/-- Supported tag variants (the keys of NDEF_CONFIG in constants.py). -/
inductive TagType where
  | NTAG213
  | NTAG215
  | NTAG216
  | NTAG21x_2A
  | ULTRALIGHT
deriving DecidableEq

/-- One entry of NDEF_CONFIG: the per-variant memory geometry. -/
structure NDEFConfig where
  data_start : Nat
  data_end : Nat
  cc_page : Nat
  cc_bytes : Bytes
  max_size : Nat
  lock_page : Nat
  lock_bytes : Bytes

/-- The NDEF_CONFIG table from constants.py. -/
def ndefConfig : TagType → NDEFConfig
  | .NTAG213 =>
      ⟨0x04, 0x27, 0x03, [0xE1, 0x10, 0x12, 0x00], 144, 0x28, [0xFF, 0xFF, 0x00, 0x00]⟩
  | .NTAG215 =>
      ⟨0x04, 0x81, 0x03, [0xE1, 0x10, 0x3E, 0x00], 504, 0x82, [0xFF, 0xFF, 0x00, 0x00]⟩
  | .NTAG216 =>
      ⟨0x04, 0xE1, 0x03, [0xE1, 0x10, 0x6D, 0x00], 888, 0xE2, [0xFF, 0xFF, 0xFF, 0x00]⟩
  | .NTAG21x_2A =>
      ⟨0x04, 0x81, 0x03, [0xE1, 0x11, 0x7F, 0x00], 1016, 0x82, [0xFF, 0xFF, 0x00, 0x00]⟩
  | .ULTRALIGHT =>
      ⟨0x04, 0x0F, 0x03, [0xE1, 0x10, 0x06, 0x00], 48, 0x02, [0xFF, 0xFF, 0x00, 0x00]⟩

/-- The version-data gathering loop of get_tag_type: read pages 0..2,
appending each page that reads successfully. -/
def collectVersionData : M Bytes := do
  let d0 ← read_page 0
  let d1 ← read_page 1
  let d2 ← read_page 2
  pure (d0.getD [] ++ d1.getD [] ++ d2.getD [])

/-- Capability-container fallback of get_tag_type: infer the variant from
the reported memory size on page 3, defaulting to ULTRALIGHT. -/
def ccFallbackType : M (Option TagType) := do
  let cc? ← read_page 3
  match cc? with
  | some cc =>
      if cc ≠ [] ∧ cc.getD 0 0 = 0xE1 then
        let memorySize := cc.getD 2 0 * 8
        if memorySize = 1016 then pure (some .NTAG21x_2A)
        else if memorySize = 144 then pure (some .NTAG213)
        else if memorySize = 504 then pure (some .NTAG215)
        else pure (some .ULTRALIGHT)
      else pure (some .ULTRALIGHT)
  | none => pure (some .ULTRALIGHT)

/-- NFCReader.get_tag_type: UID shape check, manufacturer byte, product-type
byte, then capability-container fallback, defaulting to ULTRALIGHT. -/
def get_tag_type : M (Option TagType) := do
  let uid? ← read_tag_uid
  match uid? with
  | none => pure none
  | some uid => do
      let response? ← read_page 0
      match response? with
      | none => pure none
      | some response =>
          if uid.length ≠ 7 then pure none
          else if response.getD 0 0 = 0x04 then do
            let versionData ← collectVersionData
            if versionData.length ≥ 8 then
              let prodType := versionData.getD 6 0
              if prodType = 0x0F then pure (some .NTAG213)
              else if prodType = 0x11 then pure (some .NTAG215)
              else if prodType = 0x13 then pure (some .NTAG216)
              else if prodType = 0x2A then pure (some .NTAG21x_2A)
              else ccFallbackType
            else ccFallbackType
          else pure (some .ULTRALIGHT)

/-- The test-write probe at the end of is_locked: read the first data page
and write the same bytes back; a failed write means the tag is inferred
locked. -/
def isLockedProbe (cfg : NDEFConfig) : M Bool := do
  let testData? ← read_page cfg.data_start
  match testData? with
  | some testData =>
      if testData ≠ [] then do
        let ok ← write_page cfg.data_start testData
        if ok then pure false else pure true
      else pure false
  | none => pure false

/-- Body of NFDEFHandler.is_locked before its catch-all. -/
def isLockedBody (tt : TagType) : M Bool := do
  let cfg := ndefConfig tt
  let staticLock? ← read_page 2
  let staticSet : Bool :=
    match staticLock? with
    | some sl => !sl.isEmpty && (sl.getD 2 0 != 0 || sl.getD 3 0 != 0)
    | none => false
  if staticSet then pure true
  else if tt = .ULTRALIGHT then isLockedProbe cfg
  else do
    let lockData? ← read_page cfg.lock_page
    match lockData? with
    | some lockData =>
        if !lockData.isEmpty then
          match tt with
          | .NTAG213 => pure (lockData.getD 0 0 != 0)
          | .NTAG215 => pure (lockData.getD 0 0 != 0 || lockData.getD 1 0 != 0)
          | .NTAG21x_2A => pure (lockData.getD 0 0 != 0 || lockData.getD 1 0 != 0)
          | .NTAG216 =>
              pure (lockData.getD 0 0 != 0 || lockData.getD 1 0 != 0 ||
                lockData.getD 2 0 != 0)
          | .ULTRALIGHT => isLockedProbe cfg
        else isLockedProbe cfg
    | none => isLockedProbe cfg

/-- NFDEFHandler.is_locked: lock-bit inspection with a trailing test-write
probe; any exception is swallowed into "not locked". -/
def is_locked (tt : TagType) : M Bool :=
  catchAll (isLockedBody tt) (pure false)

/-- The page-clearing loop of clear_tag: write zeros to each page in turn,
aborting with failure on the first page write that fails. -/
def clearLoop : List Nat → M Bool
  | [] => pure true
  | p :: rest => do
      let ok ← write_page p (List.replicate 4 0)
      if ok then clearLoop rest else pure false

/-- The page numbers from `a` to `b` inclusive (Python range(a, b + 1)). -/
def pageRange (a b : Nat) : List Nat := List.range' a (b + 1 - a)

/-- NFDEFHandler.clear_tag: raise TagLocked if the tag is locked, otherwise
clear the user memory pages; non-TagLocked exceptions become failure. -/
def clear_tag (tt : TagType) : M Bool :=
  catchOtherThanLocked
    (do
      let locked ← is_locked tt
      if locked then Mraise .tagLocked
      else
        let cfg := ndefConfig tt
        clearLoop (pageRange cfg.data_start cfg.data_end))
    (pure false)

/-- A bounded retry loop around write_page (the Python `for _ in range(n)`
with break-on-success and fail-on-exhaustion). -/
def writeRetry : Nat → Nat → Bytes → M Bool
  | 0, _, _ => pure false
  | n + 1, p, d => do
      let ok ← write_page p d
      if ok then pure true else writeRetry n p d

/-- NFDEFHandler.format_tag: identify the tag, run clear_tag but continue
regardless of its Boolean result, then write and verify the capability
container; any exception (including TagLocked from clear_tag) becomes
failure. -/
def format_tag : M Bool :=
  catchAll
    (do
      let tt? ← get_tag_type
      match tt? with
      | none => pure false
      | some tt => do
          let cfg := ndefConfig tt
          let _ ← clear_tag tt
          let wrote ← writeRetry 3 cfg.cc_page cfg.cc_bytes
          if !wrote then pure false
          else do
            let response? ← read_page cfg.cc_page
            match response? with
            | none => pure false
            | some response =>
                if response = cfg.cc_bytes then pure true
                else if response.getD 0 0 = cfg.cc_bytes.getD 0 0 ∧
                    response.getD 1 0 = cfg.cc_bytes.getD 1 0 ∧
                    response.getD 3 0 = cfg.cc_bytes.getD 3 0 ∧
                    response.getD 2 0 > cfg.cc_bytes.getD 2 0 then
                  pure true
                else do
                  let adjusted := [cfg.cc_bytes.getD 0 0, cfg.cc_bytes.getD 1 0,
                    response.getD 2 0, cfg.cc_bytes.getD 3 0]
                  let ok ← write_page cfg.cc_page adjusted
                  if ok then pure true else pure false)
    (pure false)

/-- The nft_data dict handed to write_ndef_message / produced by
read_ndef_message. -/
structure NFTDict where
  version : List Char
  nft_id : List Char
  offer : List Char
deriving DecidableEq

/-- UTF-8 encoding restricted to the ASCII fragment used by the tool: one
byte per character. -/
def asciiEncode (cs : List Char) : Bytes := cs.map Char.toNat

/-- UTF-8 decoding restricted to the ASCII fragment: succeeds exactly on
byte sequences below 0x80. -/
def asciiDecode? (bs : Bytes) : Option (List Char) :=
  if bs.all (· < 128) then some (bs.map Char.ofNat) else none

/-- The text assembled by write_ndef_message: version, nft_id and offer
concatenated. -/
def dataChars (d : NFTDict) : List Char := d.version ++ d.nft_id ++ d.offer

/-- Language marker plus UTF-8 text: 0x02, "en", then the data bytes. -/
def payloadBytes (d : NFTDict) : Bytes :=
  [0x02, 0x65, 0x6E] ++ asciiEncode (dataChars d)

/-- The NDEF short text record: header 0xD1/0x01/payload-length/'T' plus the
payload. -/
def ndefRecordBytes (d : NFTDict) : Bytes :=
  [0xD1, 0x01, (payloadBytes d).length, 0x54] ++ payloadBytes d

/-- The TLV wrapper: 0x03, message length, NDEF record, 0xFE terminator. -/
def tlvBytes (d : NFTDict) : Bytes :=
  [0x03, (ndefRecordBytes d).length] ++ ndefRecordBytes d ++ [0xFE]

/-- Zero-pad a chunk to 4 bytes (bytes.ljust(4, b'\x00')). -/
def ljust4 (l : Bytes) : Bytes := l ++ List.replicate (4 - l.length) 0

/-- The page-writing loop of write_ndef_message: write 4-byte zero-padded
chunks sequentially (the final chunk is zero-padded), aborting with failure
on the first failed page. -/
def writeChunks (page : Nat) : Bytes → M Bool
  | [] => pure true
  | [a] => do
      let ok ← write_page page [a, 0, 0, 0]
      if ok then pure true else pure false
  | [a, b] => do
      let ok ← write_page page [a, b, 0, 0]
      if ok then pure true else pure false
  | [a, b, c] => do
      let ok ← write_page page [a, b, c, 0]
      if ok then pure true else pure false
  | a :: b :: c :: d :: rest => do
      let ok ← write_page page [a, b, c, d]
      if ok then writeChunks (page + 1) rest else pure false

/-- NFDEFHandler.write_ndef_message: build the TLV-wrapped text record,
reject oversize messages before touching the tag, then write it in 4-byte
pages. A length byte above 255 makes the Python bytes() constructor raise,
which the catch-all turns into failure. -/
def write_ndef_message (d : NFTDict) : M Bool :=
  catchAll
    (do
      let tt? ← get_tag_type
      match tt? with
      | none => pure false
      | some tt => do
          let cfg := ndefConfig tt
          if 255 < (payloadBytes d).length ∨ 255 < (ndefRecordBytes d).length then
            Mraise .nfcErr
          else
            let tlv := tlvBytes d
            if cfg.max_size < tlv.length then pure false
            else writeChunks cfg.data_start tlv)
    (pure false)

/-- The page-reading loop of read_ndef_message: read `n` consecutive pages
starting at `start`, concatenating the bytes, failing if any page read
fails. -/
def readPages (start : Nat) : Nat → M (Option Bytes)
  | 0 => pure (some [])
  | n + 1 => do
      let d? ← read_page start
      match d? with
      | none => pure none
      | some d => do
          let rest? ← readPages (start + 1) n
          match rest? with
          | none => pure none
          | some rest => pure (some (d ++ rest))

/-- NFDEFHandler.read_ndef_message: check the TLV tag on the first data
page, read ceil((len+2)/4) pages starting at the first data page, slice the
payload at fixed offset 9, decode and split at offsets 5 and 67. -/
def read_ndef_message : M (Option NFTDict) :=
  catchAll
    (do
      let tt? ← get_tag_type
      match tt? with
      | none => pure none
      | some tt => do
          let cfg := ndefConfig tt
          let data? ← read_page cfg.data_start
          match data? with
          | none => pure none
          | some data =>
              if data.getD 0 0 ≠ 0x03 then pure none
              else do
                let msgLength := data.getD 1 0
                let pagesNeeded := (msgLength + 2 + 3) / 4
                let message? ← readPages cfg.data_start pagesNeeded
                match message? with
                | none => pure none
                | some message =>
                    let payload := (message.take (msgLength + 2)).drop 9
                    match asciiDecode? payload with
                    | none => Mraise .nfcErr
                    | some text =>
                        pure (some ⟨text.take 5, (text.drop 5).take 62,
                          text.drop 67⟩))
    (pure none)

/-- NFDEFHandler.lock_tag with the tag type supplied by the caller (as
write_data calls it): static lock bytes with 3 attempts, dynamic lock bytes
with 3 attempts for non-Ultralight tags, then verify with is_locked. -/
def lock_tag (tt : TagType) : M Bool :=
  catchAll
    (do
      let cfg := ndefConfig tt
      let okStatic ← writeRetry 3 2 [0x00, 0x00, 0xFF, 0xFF]
      if !okStatic then pure false
      else do
        let okDyn ←
          if tt = .ULTRALIGHT then pure true
          else writeRetry 3 cfg.lock_page cfg.lock_bytes
        if !okDyn then pure false
        else do
          let verified ← is_locked tt
          if !verified then pure false else pure true)
    (pure false)

/-- NFCReader.write_data: identify, refuse locked tags, format, write the
NDEF message, optionally lock; every exception becomes a plain False. -/
def write_data (d : NFTDict) (lock : Bool) : M Bool :=
  catchAll
    (do
      let tt? ← get_tag_type
      match tt? with
      | none => pure false
      | some tt => do
          let locked ← is_locked tt
          if locked then pure false
          else do
            let formatted ← format_tag
            if !formatted then pure false
            else do
              let wrote ← write_ndef_message d
              if !wrote then pure false
              else
                if lock then do
                  let lockedOk ← lock_tag tt
                  if !lockedOk then pure false else pure true
                else pure true)
    (pure false)

/-- Uppercase hexadecimal digit for a value below 16. -/
def hexDigit (n : Nat) : Char :=
  if n < 10 then Char.ofNat (48 + n) else Char.ofNat (55 + n)

/-- smartcard.util.toHexString: uppercase hex bytes separated by single
spaces. -/
def toHexString (b : Bytes) : String :=
  String.intercalate " "
    (b.map fun x => String.mk [hexDigit (x / 16 % 16), hexDigit (x % 16)])

/-- Python str.lower restricted to the ASCII data this tool handles. -/
def strLower (s : String) : String := String.mk (s.data.map Char.toLower)

/-- Python str.upper restricted to the ASCII data this tool handles. -/
def strUpper (s : String) : String := String.mk (s.data.map Char.toUpper)

/-- Whitespace for Python str.strip. -/
def isSpaceChar (c : Char) : Bool :=
  c = ' ' ∨ c = '\t' ∨ c = '\n' ∨ c = '\r'

/-- Python str.strip: drop leading and trailing whitespace. -/
def strStrip (s : String) : String :=
  String.mk (((s.data.dropWhile isSpaceChar).reverse.dropWhile
    isSpaceChar).reverse)

/-- One CSV row of the batch input file. -/
structure CSVRecord where
  uid : String
  version : List Char
  nft_id : List Char
  offer : List Char

/-- Mutable batch-loop state: the processed-UID set and the two counters. -/
structure BatchState where
  processed : List String
  succ : Nat
  fail : Nat
deriving DecidableEq

/-- Which operator recovery prompt an iteration showed. -/
inductive Prompt where
  | none
  | skipQuit
  | retrySkipQuit
deriving DecidableEq

/-- Observable outcome of one batch-loop iteration. -/
inductive StepEvent where
  | quit
  | uidReadFail
  | noMatch (u : String)
  | duplicate (u : String)
  | wroteOk (u : String)
  | wroteFail (u : String)
  | lockedSkip (u : String)
  | lockedQuit
  | werrRetry
  | werrSkip (u : String)
  | werrQuit
  | raised (e : Exn)
deriving DecidableEq

/-- Result of one batch-loop iteration. -/
structure StepRes where
  bs : BatchState
  mem : Mem
  ev : StepEvent
  prompt : Prompt
  invokedWrite : Bool

/-- The record lookup of the batch loop: first CSV row whose normalized UID
matches the scanned UID. -/
def findMatch (records : List CSVRecord) (scanned : String) : Option CSVRecord :=
  records.find? fun r => strUpper (strStrip r.uid) == scanned

/-- One iteration of the while-loop in handle_batch_operation: quit check,
UID scan, normalization, record lookup, duplicate check, then the write with
its TagLockedException and WriteError handlers (`lockedAct` and `writeAct`
are the operator's answers to those prompts, when shown). -/
def batchStep (records : List CSVRecord) (lockB : Bool) (userInput : String)
    (lockedAct writeAct : Char) (bs : BatchState) (env : Env) (mem : Mem) :
    StepRes :=
  if strLower userInput == "q" then ⟨bs, mem, .quit, .none, false⟩
  else
    match read_tag_uid env mem with
    | (.error e, mem1, _) => ⟨bs, mem1, .raised e, .none, false⟩
    | (.ok none, mem1, _) => ⟨bs, mem1, .uidReadFail, .none, false⟩
    | (.ok (some uidBytes), mem1, _) =>
        let scanned := strUpper (strStrip (toHexString uidBytes))
        match findMatch records scanned with
        | none => ⟨bs, mem1, .noMatch scanned, .none, false⟩
        | some r =>
            if bs.processed.contains scanned then
              ⟨bs, mem1, .duplicate scanned, .none, false⟩
            else
              let d : NFTDict := ⟨r.version, r.nft_id, r.offer⟩
              match write_data d lockB env mem1 with
              | (.ok true, mem2, _) =>
                  ⟨⟨scanned :: bs.processed, bs.succ + 1, bs.fail⟩, mem2,
                    .wroteOk scanned, .none, true⟩
              | (.ok false, mem2, _) =>
                  ⟨⟨scanned :: bs.processed, bs.succ, bs.fail + 1⟩, mem2,
                    .wroteFail scanned, .none, true⟩
              | (.error .tagLocked, mem2, _) =>
                  if lockedAct = 'q' then ⟨bs, mem2, .lockedQuit, .skipQuit, true⟩
                  else
                    ⟨⟨scanned :: bs.processed, bs.succ, bs.fail + 1⟩, mem2,
                      .lockedSkip scanned, .skipQuit, true⟩
              | (.error .writeErr, mem2, _) =>
                  if writeAct = 'q' then
                    ⟨bs, mem2, .werrQuit, .retrySkipQuit, true⟩
                  else if writeAct = 's' then
                    ⟨⟨scanned :: bs.processed, bs.succ, bs.fail + 1⟩, mem2,
                      .werrSkip scanned, .retrySkipQuit, true⟩
                  else ⟨bs, mem2, .werrRetry, .retrySkipQuit, true⟩
              | (.error e, mem2, _) => ⟨bs, mem2, .raised e, .none, true⟩

/-- NFTData of src/nft/data.py (validated record). -/
structure NFTData where
  version : List Char
  nft_id : List Char
  offer : List Char
deriving DecidableEq

/-- NFTData.DEFAULT_VERSION. -/
def DEFAULT_VERSION : List Char := ['D', 'T', '0', '0', '1']

/-- NFTData.DEFAULT_OFFER_LENGTH. -/
def DEFAULT_OFFER_LENGTH : Nat := 64

/-- NFTData.LEGACY_OFFER_LENGTH. -/
def LEGACY_OFFER_LENGTH : Nat := 5

/-- NFTData.MAX_OFFER_LENGTH. -/
def MAX_OFFER_LENGTH : Nat := 64

/-- NFTData construction with the __post_init__ validation: default version
when absent, required nft_id and offer, bounded version and nft_id lengths.
Returns the validated record or a ValueError. -/
def mkNFTData (version nft_id offer : List Char) : Except String NFTData :=
  let v := if version = [] then DEFAULT_VERSION else version
  if nft_id = [] then .error "NFT ID is required"
  else if offer = [] then .error "Offer code is required"
  else if v.length > 5 then .error "Version string too long"
  else if nft_id.length > 62 then .error "NFT ID too long"
  else .ok ⟨v, nft_id, offer⟩

/-- NFTData.validate_offer_length: exact target length in strict mode
(legacy selects 5, otherwise 64), at most MAX_OFFER_LENGTH in lenient
mode. -/
def validate_offer_length (d : NFTData) (strict legacy : Bool) :
    Except String Bool :=
  let targetLen := if legacy then LEGACY_OFFER_LENGTH else DEFAULT_OFFER_LENGTH
  if strict then
    if d.offer.length ≠ targetLen then .error "Offer code must be exactly target length"
    else .ok true
  else if d.offer.length > MAX_OFFER_LENGTH then .error "Offer code too long"
  else .ok true

/-- Whether a trace event is a write attempt. -/
def Ev.isWrite : Ev → Bool
  | .rd _ => false
  | .wr _ _ => true

theorem bind_def {α β : Type} (m : M α) (f : α → M β) :
    m >>= f = Mbind m f := rfl

theorem pure_def {α : Type} (a : α) : (pure a : M α) = Mpure a := rfl

/-- Computations that never attempt a page write and leave memory
untouched. -/
def ReadsOnly {α : Type} (m : M α) : Prop :=
  ∀ env mem, (m env mem).2.1 = mem ∧ (m env mem).2.2.filter Ev.isWrite = []

theorem readsOnly_pure {α : Type} (a : α) : ReadsOnly (Mpure a) := by
  intro env mem
  simp [Mpure]

theorem readsOnly_raise {α : Type} (e : Exn) : ReadsOnly (Mraise e : M α) := by
  intro env mem
  simp [Mraise]

theorem readsOnly_read_page (p : Nat) : ReadsOnly (read_page p) := by
  intro env mem
  unfold read_page
  cases env.readB p <;> simp [Ev.isWrite]

theorem readsOnly_read_tag_uid : ReadsOnly read_tag_uid := by
  intro env mem
  unfold read_tag_uid
  cases env.uidB <;> simp

theorem readsOnly_bind {α β : Type} {m : M α} {f : α → M β}
    (hm : ReadsOnly m) (hf : ∀ a, ReadsOnly (f a)) : ReadsOnly (Mbind m f) := by
  intro env mem
  have hm1 := hm env mem
  rcases hres : m env mem with ⟨r, mem1, t1⟩
  rw [hres] at hm1
  obtain ⟨hmem1, ht1⟩ := hm1
  simp only [Mbind]
  rw [hres]
  cases r with
  | error e => exact ⟨hmem1, ht1⟩
  | ok a =>
      have hf1 := hf a env mem1
      obtain ⟨hmem2, ht2⟩ := hf1
      dsimp only at hmem1 ht1
      constructor
      · rw [hmem2, hmem1]
      · simp [List.filter_append, ht1, ht2]

theorem readsOnly_collectVersionData : ReadsOnly collectVersionData := by
  unfold collectVersionData
  simp only [bind_def, pure_def]
  exact readsOnly_bind (readsOnly_read_page 0) fun _ =>
    readsOnly_bind (readsOnly_read_page 1) fun _ =>
      readsOnly_bind (readsOnly_read_page 2) fun _ => readsOnly_pure _

theorem readsOnly_ccFallbackType : ReadsOnly ccFallbackType := by
  unfold ccFallbackType
  simp only [bind_def, pure_def]
  refine readsOnly_bind (readsOnly_read_page 3) fun cc? => ?_
  rcases cc? with _ | cc
  · exact readsOnly_pure _
  · dsimp only
    split
    · split <;> (first | exact readsOnly_pure _ | skip) <;>
        (split <;> (first | exact readsOnly_pure _ | skip)) <;>
        (first | exact readsOnly_pure _ | split <;> exact readsOnly_pure _)
    · exact readsOnly_pure _

theorem readsOnly_get_tag_type : ReadsOnly get_tag_type := by
  unfold get_tag_type
  simp only [bind_def, pure_def]
  refine readsOnly_bind readsOnly_read_tag_uid fun uid? => ?_
  rcases uid? with _ | uid
  · exact readsOnly_pure _
  · dsimp only
    refine readsOnly_bind (readsOnly_read_page 0) fun r? => ?_
    rcases r? with _ | r
    · exact readsOnly_pure _
    · dsimp only
      split
      · exact readsOnly_pure _
      · split
        · refine readsOnly_bind readsOnly_collectVersionData fun vd => ?_
          dsimp only
          split
          · split
            · exact readsOnly_pure _
            · split
              · exact readsOnly_pure _
              · split
                · exact readsOnly_pure _
                · split
                  · exact readsOnly_pure _
                  · exact readsOnly_ccFallbackType
          · exact readsOnly_ccFallbackType
        · exact readsOnly_pure _

/-- C9 support: every conjunct of the data-model validation claim. -/
theorem nftData_validation (v n o : List Char) (dd : NFTData) (lg : Bool) :
    (mkNFTData v [] o = .error "NFT ID is required") ∧
    (mkNFTData [] n o = .ok dd → dd.version = DEFAULT_VERSION) ∧
    ((validate_offer_length dd true lg = .ok true) ↔
      dd.offer.length = (if lg then LEGACY_OFFER_LENGTH else DEFAULT_OFFER_LENGTH)) ∧
    ((validate_offer_length dd false lg = .ok true) ↔
      dd.offer.length ≤ MAX_OFFER_LENGTH) := by
  refine ⟨by simp [mkNFTData], ?_, ?_, ?_⟩
  · intro h
    simp only [mkNFTData, reduceIte] at h
    repeat' split at h
    all_goals cases h
    rfl
  · unfold validate_offer_length
    simp only [if_pos rfl]
    split
    · simp_all
    · simp_all
  · unfold validate_offer_length
    simp only [Bool.false_eq_true, if_false]
    split
    · rename_i hgt
      constructor
      · intro h
        exact absurd h (by simp)
      · intro h
        omega
    · rename_i hle
      simp
      omega

/-- Transport environment in which every command succeeds. -/
def envOk (uid : Bytes) : Env := ⟨fun _ => .ok, fun _ => .ok, .ok, uid⟩

/-- A 7-byte UID whose first byte is the NTAG21x manufacturer byte. -/
def uid7 : Bytes := [0x04, 0xA1, 0xB2, 0xC3, 0xD4, 0xE5, 0xF6]

/-- All-zero 4-byte pages. -/
def memZero : Mem := fun _ => [0, 0, 0, 0]

/-- C4: with the tag variant resolved, an oversize TLV makes
write_ndef_message report failure with no page write attempted. -/
theorem capacity_reject (d : NFTDict) (tt : TagType) (env : Env) (mem : Mem)
    (htt : (get_tag_type env mem).1 = .ok (some tt))
    (hbig : (ndefConfig tt).max_size < (tlvBytes d).length) :
    (write_ndef_message d env mem).1 = .ok false ∧
    (write_ndef_message d env mem).2.2.filter Ev.isWrite = [] := by
  have hro := readsOnly_get_tag_type env mem
  rcases hg : get_tag_type env mem with ⟨r, memg, tg⟩
  rw [hg] at hro htt
  obtain ⟨hmemg, htg⟩ := hro
  dsimp only at hmemg htg htt
  subst hmemg
  subst htt
  simp only [write_ndef_message, catchAll, bind_def, Mbind, pure_def, Mpure,
    Mraise]
  rw [hg]
  dsimp only
  by_cases hov : 255 < (payloadBytes d).length ∨ 255 < (ndefRecordBytes d).length
  · rw [if_pos hov]
    simp_all [Mpure, Mraise]
  · rw [if_neg hov, if_pos hbig]
    simp_all [Mpure, Mraise]

/-- Witness for the capacity claim: a 56-byte TLV against the 48-byte
Ultralight window. -/
theorem capacity_reject_witness :
    (write_ndef_message ⟨['D', 'T', '0', '0', '1'], ['a'], List.replicate 40 'b'⟩
      (envOk uid7) memZero).1 = .ok false ∧
    (write_ndef_message ⟨['D', 'T', '0', '0', '1'], ['a'], List.replicate 40 'b'⟩
      (envOk uid7) memZero).2.2.filter Ev.isWrite = [] := by
  have h := capacity_reject ⟨['D', 'T', '0', '0', '1'], ['a'], List.replicate 40 'b'⟩
    .ULTRALIGHT (envOk uid7) memZero rfl (by decide)
  exact h

/-- C5: the ordered identification fallback of get_tag_type — UID shape
check, recognized product-type byte, capability-container size inference,
and the ULTRALIGHT default. -/
theorem tag_identification (env : Env) (mem : Mem)
    (hu : env.uidB = .ok) (h0 : env.readB 0 = .ok) :
    (env.uid.length ≠ 7 → (get_tag_type env mem).1 = .ok none) ∧
    (∀ a1 a2 a3 b0 b1 pt b3 : Nat,
      env.uid.length = 7 → env.readB 1 = .ok → env.readB 2 = .ok →
      mem 0 = [0x04, a1, a2, a3] → mem 1 = [b0, b1, pt, b3] →
      ((pt = 0x0F → (get_tag_type env mem).1 = .ok (some .NTAG213)) ∧
       (pt = 0x11 → (get_tag_type env mem).1 = .ok (some .NTAG215)) ∧
       (pt = 0x13 → (get_tag_type env mem).1 = .ok (some .NTAG216)) ∧
       (pt = 0x2A → (get_tag_type env mem).1 = .ok (some .NTAG21x_2A)))) ∧
    (∀ a1 a2 a3 b0 b1 pt b3 c1 sz c3 : Nat,
      env.uid.length = 7 → env.readB 1 = .ok → env.readB 2 = .ok →
      env.readB 3 = .ok →
      mem 0 = [0x04, a1, a2, a3] → mem 1 = [b0, b1, pt, b3] →
      pt ≠ 0x0F → pt ≠ 0x11 → pt ≠ 0x13 → pt ≠ 0x2A →
      mem 3 = [0xE1, c1, sz, c3] →
      ((sz * 8 = 144 → (get_tag_type env mem).1 = .ok (some .NTAG213)) ∧
       (sz * 8 = 504 → (get_tag_type env mem).1 = .ok (some .NTAG215)) ∧
       (sz * 8 = 1016 → (get_tag_type env mem).1 = .ok (some .NTAG21x_2A)) ∧
       (sz * 8 ≠ 144 → sz * 8 ≠ 504 → sz * 8 ≠ 1016 →
         (get_tag_type env mem).1 = .ok (some .ULTRALIGHT)))) ∧
    (∀ a1 a2 a3 c1 sz c3 : Nat,
      env.uid.length = 7 → env.readB 1 = .sfail → env.readB 2 = .sfail →
      env.readB 3 = .ok →
      mem 0 = [0x04, a1, a2, a3] → mem 3 = [0xE1, c1, sz, c3] →
      (sz * 8 = 1016 → (get_tag_type env mem).1 = .ok (some .NTAG21x_2A))) ∧
    (env.uid.length = 7 → (mem 0).getD 0 0 ≠ 0x04 →
      (get_tag_type env mem).1 = .ok (some .ULTRALIGHT)) ∧
    (∀ a1 a2 a3 b0 b1 pt b3 : Nat,
      env.uid.length = 7 → env.readB 1 = .ok → env.readB 2 = .ok →
      env.readB 3 = .sfail →
      mem 0 = [0x04, a1, a2, a3] → mem 1 = [b0, b1, pt, b3] →
      pt ≠ 0x0F → pt ≠ 0x11 → pt ≠ 0x13 → pt ≠ 0x2A →
      (get_tag_type env mem).1 = .ok (some .ULTRALIGHT)) := by
  refine ⟨?_, ?_, ?_, ?_, ?_, ?_⟩
  · intro hne
    simp [get_tag_type, bind_def, Mbind, read_tag_uid, read_page, pure_def,
      Mpure, hu, h0, hne]
  · intro a1 a2 a3 b0 b1 pt b3 hlen h1 h2 hm0 hm1
    refine ⟨fun hpt => ?_, fun hpt => ?_, fun hpt => ?_, fun hpt => ?_⟩ <;>
      simp [get_tag_type, collectVersionData, bind_def, Mbind, read_tag_uid,
        read_page, pure_def, Mpure, hu, h0, h1, h2, hlen, hm0, hm1, hpt,
        List.getD]
  · intro a1 a2 a3 b0 b1 pt b3 c1 sz c3 hlen h1 h2 h3 hm0 hm1 hp1 hp2 hp3 hp4 hm3
    refine ⟨fun hsz => ?_, fun hsz => ?_, fun hsz => ?_,
      fun hs1 hs2 hs3 => ?_⟩ <;>
      simp [get_tag_type, collectVersionData, ccFallbackType, bind_def, Mbind,
        read_tag_uid, read_page, pure_def, Mpure, hu, h0, h1, h2, h3, hlen,
        hm0, hm1, hm3, hp1, hp2, hp3, hp4, List.getD] <;>
      simp_all [Mpure]
  · intro a1 a2 a3 c1 sz c3 hlen h1 h2 h3 hm0 hm3 hsz
    simp [get_tag_type, collectVersionData, ccFallbackType, bind_def, Mbind,
      read_tag_uid, read_page, pure_def, Mpure, hu, h0, h1, h2, h3, hlen,
      hm0, hm3, hsz, List.getD]
  · intro hlen hne
    simp only [List.getD_eq_getElem?_getD] at hne
    simp [get_tag_type, bind_def, Mbind, read_tag_uid, read_page, pure_def,
      Mpure, hu, h0, hlen, hne]
  · intro a1 a2 a3 b0 b1 pt b3 hlen h1 h2 h3 hm0 hm1 hp1 hp2 hp3 hp4
    simp [get_tag_type, collectVersionData, ccFallbackType, bind_def, Mbind,
      read_tag_uid, read_page, pure_def, Mpure, hu, h0, h1, h2, h3, hlen,
      hm0, hm1, hp1, hp2, hp3, hp4, List.getD]

theorem catchAll_pure_shape {α : Type} (m : M α) (c : α) (env : Env)
    (mem : Mem) : ∃ a, (catchAll m (Mpure c) env mem).1 = .ok a := by
  unfold catchAll Mpure
  rcases m env mem with ⟨r, mem1, t1⟩
  cases r
  · exact ⟨c, rfl⟩
  · exact ⟨_, rfl⟩

theorem is_locked_shape (tt : TagType) (env : Env) (mem : Mem) :
    ∃ b, (is_locked tt env mem).1 = .ok b := by
  unfold is_locked
  simp only [pure_def]
  exact catchAll_pure_shape _ _ env mem

theorem format_tag_shape (env : Env) (mem : Mem) :
    ∃ b, (format_tag env mem).1 = .ok b := by
  unfold format_tag
  simp only [pure_def]
  exact catchAll_pure_shape _ _ env mem

theorem write_ndef_message_shape (d : NFTDict) (env : Env) (mem : Mem) :
    ∃ b, (write_ndef_message d env mem).1 = .ok b := by
  unfold write_ndef_message
  simp only [pure_def]
  exact catchAll_pure_shape _ _ env mem

theorem lock_tag_shape (tt : TagType) (env : Env) (mem : Mem) :
    ∃ b, (lock_tag tt env mem).1 = .ok b := by
  unfold lock_tag
  simp only [pure_def]
  exact catchAll_pure_shape _ _ env mem

/-- The Boolean that write_data reports, expressed over its stages: success
exactly when the tag is identified, not locked, formats, takes the NDEF
message, and (when requested) locks. -/
def writeDataSpec (d : NFTDict) (lock : Bool) (env : Env) (mem : Mem) : Bool :=
  match (get_tag_type env mem).1 with
  | .error _ => false
  | .ok none => false
  | .ok (some tt) =>
      match (is_locked tt env mem).1 with
      | .error _ => false
      | .ok true => false
      | .ok false =>
          let memL := (is_locked tt env mem).2.1
          match (format_tag env memL).1 with
          | .error _ => false
          | .ok false => false
          | .ok true =>
              let memF := (format_tag env memL).2.1
              match (write_ndef_message d env memF).1 with
              | .error _ => false
              | .ok false => false
              | .ok true =>
                  let memW := (write_ndef_message d env memF).2.1
                  if lock then
                    match (lock_tag tt env memW).1 with
                    | .ok true => true
                    | _ => false
                  else true

/-- C10: write_data never lets an exception escape — it always reports a
plain Boolean, equal to the stage-by-stage success condition — and a locked
tag yields the same observable False as any other failure. -/
theorem write_data_interface (d : NFTDict) (lock : Bool) (env : Env)
    (mem : Mem) :
    (write_data d lock env mem).1 = .ok (writeDataSpec d lock env mem) ∧
    (∀ tt, (get_tag_type env mem).1 = .ok (some tt) →
      (is_locked tt env mem).1 = .ok true →
      (write_data d lock env mem).1 = .ok false) := by
  obtain ⟨rg, memg, tg, hg⟩ : ∃ r m t, get_tag_type env mem = (r, m, t) :=
    ⟨_, _, _, rfl⟩
  have hro := readsOnly_get_tag_type env mem
  rw [hg] at hro
  obtain ⟨hmg, -⟩ := hro
  dsimp only at hmg
  rw [hmg] at hg
  clear hmg
  cases rg with
  | error e =>
      constructor
      · simp [write_data, writeDataSpec, bind_def, pure_def, catchAll, Mbind,
          Mpure, hg]
      · intro tt' h1 _
        rw [hg] at h1
        simp at h1
  | ok a =>
      cases a with
      | none =>
          constructor
          · simp [write_data, writeDataSpec, bind_def, pure_def, catchAll,
              Mbind, Mpure, hg]
          · intro tt' h1 _
            rw [hg] at h1
            simp at h1
      | some tt =>
          obtain ⟨bL, hbL⟩ := is_locked_shape tt env mem
          obtain ⟨rL, memL, tL, hL⟩ : ∃ r m t, is_locked tt env mem = (r, m, t) :=
            ⟨_, _, _, rfl⟩
          rw [hL] at hbL
          dsimp only at hbL
          subst hbL
          cases bL with
          | true =>
              constructor
              · simp [write_data, writeDataSpec, bind_def, pure_def, catchAll,
                  Mbind, Mpure, hg, hL]
              · intro tt' h1 _
                rw [hg] at h1
                have htt : tt = tt' := by simpa using h1
                subst htt
                simp [write_data, bind_def, pure_def, catchAll, Mbind, Mpure,
                  hg, hL]
          | false =>
              obtain ⟨bF, hbF⟩ := format_tag_shape env memL
              obtain ⟨rF, memF, tF, hF⟩ : ∃ r m t, format_tag env memL = (r, m, t) :=
                ⟨_, _, _, rfl⟩
              rw [hF] at hbF
              dsimp only at hbF
              subst hbF
              have locked_contra : ∀ tt' : TagType,
                  (get_tag_type env mem).1 = .ok (some tt') →
                  (is_locked tt' env mem).1 = .ok true →
                  (write_data d lock env mem).1 = .ok false := by
                intro tt' h1 h2
                rw [hg] at h1
                have htt : tt = tt' := by simpa using h1
                subst htt
                rw [hL] at h2
                simp at h2
              cases bF with
              | false =>
                  refine ⟨?_, locked_contra⟩
                  simp [write_data, writeDataSpec, bind_def, pure_def,
                    catchAll, Mbind, Mpure, hg, hL, hF]
              | true =>
                  obtain ⟨bW, hbW⟩ := write_ndef_message_shape d env memF
                  obtain ⟨rW, memW, tW, hW⟩ :
                      ∃ r m t, write_ndef_message d env memF = (r, m, t) :=
                    ⟨_, _, _, rfl⟩
                  rw [hW] at hbW
                  dsimp only at hbW
                  subst hbW
                  cases bW with
                  | false =>
                      refine ⟨?_, locked_contra⟩
                      simp [write_data, writeDataSpec, bind_def, pure_def,
                        catchAll, Mbind, Mpure, hg, hL, hF, hW]
                  | true =>
                      cases lock with
                      | false =>
                          refine ⟨?_, locked_contra⟩
                          simp [write_data, writeDataSpec, bind_def, pure_def,
                            catchAll, Mbind, Mpure, hg, hL, hF, hW]
                      | true =>
                          obtain ⟨bK, hbK⟩ := lock_tag_shape tt env memW
                          obtain ⟨rK, memK, tK, hK⟩ :
                              ∃ r m t, lock_tag tt env memW = (r, m, t) :=
                            ⟨_, _, _, rfl⟩
                          rw [hK] at hbK
                          dsimp only at hbK
                          subst hbK
                          refine ⟨?_, locked_contra⟩
                          cases bK with
                          | false =>
                              simp [write_data, writeDataSpec, bind_def,
                                pure_def, catchAll, Mbind, Mpure, hg, hL, hF,
                                hW, hK]
                          | true =>
                              simp [write_data, writeDataSpec, bind_def,
                                pure_def, catchAll, Mbind, Mpure, hg, hL, hF,
                                hW, hK]

/-- C7: the processed-UID set and the counters only grow on every batch
iteration, and a scanned UID that matches a record but was already processed
is reported as a duplicate, leaves the batch state untouched, and never
reaches write_data. -/
theorem batch_uid_idempotence (records : List CSVRecord) (lockB : Bool)
    (ui : String) (la wa : Char) (bs : BatchState) (env : Env) (mem : Mem) :
    (bs.processed ⊆
        (batchStep records lockB ui la wa bs env mem).bs.processed ∧
      bs.succ ≤ (batchStep records lockB ui la wa bs env mem).bs.succ ∧
      bs.fail ≤ (batchStep records lockB ui la wa bs env mem).bs.fail) ∧
    (strLower ui ≠ "q" → env.uidB = .ok →
      (findMatch records (strUpper (strStrip (toHexString env.uid)))).isSome =
        true →
      bs.processed.contains (strUpper (strStrip (toHexString env.uid))) =
        true →
      (batchStep records lockB ui la wa bs env mem).ev =
        .duplicate (strUpper (strStrip (toHexString env.uid))) ∧
      (batchStep records lockB ui la wa bs env mem).invokedWrite = false ∧
      (batchStep records lockB ui la wa bs env mem).bs = bs) := by
  constructor
  · unfold batchStep
    repeat' (first | split | dsimp only)
    all_goals
      refine ⟨fun x hx => ?_, ?_, ?_⟩ <;>
        first
          | exact hx
          | exact List.mem_cons_of_mem _ hx
          | omega
  · intro hq hub hmatch hdup
    rcases hfm : findMatch records (strUpper (strStrip (toHexString env.uid)))
      with _ | r
    · rw [hfm] at hmatch
      simp at hmatch
    · unfold batchStep
      rw [if_neg (by simp [hq])]
      simp only [read_tag_uid, hub]
      rw [hfm]
      dsimp only
      split
      · exact ⟨rfl, rfl, rfl⟩
      · rename_i hcon
        exact absurd hdup hcon

/-- Memory identifying as NTAG213 by product-type byte, with no lock bits
set. -/
def memNtag213 : Mem := fun p =>
  if p = 0 then [0x04, 1, 2, 3]
  else if p = 1 then [0, 0, 0x0F, 0]
  else [0, 0, 0, 0]

/-- Memory with no product-type byte but a capability container reporting
1016 bytes. -/
def memCC2A : Mem := fun p =>
  if p = 0 then [0x04, 1, 2, 3]
  else if p = 3 then [0xE1, 0, 127, 0]
  else [0, 0, 0, 0]

/-- Memory identifying as NTAG213 whose static lock bytes are set. -/
def memLocked : Mem := fun p =>
  if p = 0 then [0x04, 1, 2, 3]
  else if p = 1 then [0, 0, 0x0F, 0]
  else if p = 2 then [0, 0, 0xFF, 0xFF]
  else [0, 0, 0, 0]

/-- Witness for the identification claim: capability size 1016 with an
unrecognized product byte resolves to NTAG21x_2A. -/
theorem tag_identification_witness :
    (get_tag_type (envOk uid7) memCC2A).1 = .ok (some .NTAG21x_2A) :=
  ((tag_identification (envOk uid7) memCC2A rfl rfl).2.2.1 1 2 3 0 0 0 0 0 127 0
    rfl rfl rfl rfl rfl rfl (by decide) (by decide) (by decide) (by decide)
    rfl).2.2.1 rfl

/-- Witness for the write_data interface claim: a tag with static lock bits
set makes write_data report the plain Boolean False. -/
theorem write_data_interface_witness :
    (write_data ⟨['D'], ['n'], ['o']⟩ false (envOk uid7) memLocked).1 =
      .ok false :=
  (write_data_interface ⟨['D'], ['n'], ['o']⟩ false (envOk uid7) memLocked).2
    .NTAG213 rfl rfl

/-- A CSV record whose stored UID matches the scanned `uid7`. -/
def recW : CSVRecord :=
  ⟨"04 A1 B2 C3 D4 E5 F6", ['D', 'T', '0', '0', '1'], ['n'], ['o']⟩

/-- A batch state that has already processed `uid7`. -/
def bsW : BatchState := ⟨["04 A1 B2 C3 D4 E5 F6"], 1, 0⟩

/-- Witness for the batch idempotence claim: rescanning a processed UID is
reported as a duplicate and does not reach write_data. -/
theorem batch_uid_idempotence_witness :
    (batchStep [recW] false "" 's' 's' bsW (envOk uid7) memZero).ev =
      .duplicate (strUpper (strStrip (toHexString (envOk uid7).uid))) ∧
    (batchStep [recW] false "" 's' 's' bsW (envOk uid7) memZero).invokedWrite =
      false ∧
    (batchStep [recW] false "" 's' 's' bsW (envOk uid7) memZero).bs = bsW :=
  (batch_uid_idempotence [recW] false "" 's' 's' bsW (envOk uid7) memZero).2
    (by decide) rfl (by decide) (by decide)

/-- Witness for the data-model validation claim. -/
theorem nftData_validation_witness :
    mkNFTData ['A'] [] ['X'] = .error "NFT ID is required" ∧
    validate_offer_length ⟨DEFAULT_VERSION, ['n'], List.replicate 5 'a'⟩ true
      true = .ok true :=
  ⟨(nftData_validation ['A'] [] ['X']
      ⟨DEFAULT_VERSION, ['n'], List.replicate 5 'a'⟩ true).1,
    (nftData_validation ['A'] [] ['X']
      ⟨DEFAULT_VERSION, ['n'], List.replicate 5 'a'⟩ true).2.2.1.mpr
      (by decide)⟩

theorem clearLoop_ok_iff (ps : List Nat) (env : Env) (mem : Mem) :
    (clearLoop ps env mem).1 = .ok true ↔ ∀ p ∈ ps, env.writeB p = .ok := by
  induction ps generalizing mem with
  | nil => simp [clearLoop, pure_def, Mpure]
  | cons p rest ih =>
      simp only [clearLoop, bind_def, Mbind, write_page, pure_def, Mpure]
      cases h : env.writeB p with
      | ok =>
          simp only []
          rw [show (∀ q ∈ p :: rest, env.writeB q = .ok) ↔
            (∀ q ∈ rest, env.writeB q = .ok) by simp [h]]
          exact ih _
      | sfail => simp [h, Mpure]
      | exn => simp [h, Mpure]

/-- C3 support: on a locked tag, clear_tag re-raises the TagLocked
condition, with no events beyond the lock check's own. -/
theorem clear_tag_locked (tt : TagType) (env : Env) (mem : Mem)
    (h : (is_locked tt env mem).1 = .ok true) :
    clear_tag tt env mem =
      (.error .tagLocked, (is_locked tt env mem).2.1,
        (is_locked tt env mem).2.2) := by
  obtain ⟨rL, memL, tL, hL⟩ : ∃ r m t, is_locked tt env mem = (r, m, t) :=
    ⟨_, _, _, rfl⟩
  rw [hL] at h ⊢
  dsimp only at h ⊢
  subst h
  simp [clear_tag, catchOtherThanLocked, bind_def, Mbind, Mraise, hL]

/-- C3 support: on an unlocked tag, clear_tag succeeds exactly when every
user-memory page write succeeds (any single failing page aborts). -/
theorem clear_tag_unlocked (tt : TagType) (env : Env) (mem : Mem)
    (h : (is_locked tt env mem).1 = .ok false) :
    ((clear_tag tt env mem).1 = .ok true ↔
      ∀ p ∈ pageRange (ndefConfig tt).data_start (ndefConfig tt).data_end,
        env.writeB p = .ok) := by
  obtain ⟨rL, memL, tL, hL⟩ : ∃ r m t, is_locked tt env mem = (r, m, t) :=
    ⟨_, _, _, rfl⟩
  rw [hL] at h
  dsimp only at h
  subst h
  simp only [clear_tag, catchOtherThanLocked, bind_def, Mbind, Mraise, hL,
    reduceIte]
  rw [if_neg Bool.false_ne_true]
  obtain ⟨rC, memC, tC, hC⟩ :
      ∃ r m t, clearLoop
        (pageRange (ndefConfig tt).data_start (ndefConfig tt).data_end) env
        memL = (r, m, t) := ⟨_, _, _, rfl⟩
  have hiff := clearLoop_ok_iff
    (pageRange (ndefConfig tt).data_start (ndefConfig tt).data_end) env memL
  rw [hC] at hiff
  dsimp only at hiff
  rw [← hiff]
  rw [hC]
  cases rC with
  | ok b => simp
  | error e =>
      cases e <;> simp [Mpure]

/-- C3 (amended): clear_tag clears only unlocked tags and raises TagLocked
on locked ones, aborting on any single failed page write — but format_tag
swallows the TagLocked condition into a Boolean False instead of
propagating it. -/
theorem format_clear_behaviour (tt : TagType) (env : Env) (mem : Mem) :
    ((is_locked tt env mem).1 = .ok true →
      clear_tag tt env mem =
        (.error .tagLocked, (is_locked tt env mem).2.1,
          (is_locked tt env mem).2.2)) ∧
    ((is_locked tt env mem).1 = .ok false →
      ((clear_tag tt env mem).1 = .ok true ↔
        ∀ p ∈ pageRange (ndefConfig tt).data_start (ndefConfig tt).data_end,
          env.writeB p = .ok)) ∧
    (∀ tt', (get_tag_type env mem).1 = .ok (some tt') →
      (is_locked tt' env mem).1 = .ok true →
      (format_tag env mem).1 = .ok false) := by
  refine ⟨clear_tag_locked tt env mem, clear_tag_unlocked tt env mem, ?_⟩
  intro tt' hg' hlk
  obtain ⟨rg, memg, tg, hg⟩ : ∃ r m t, get_tag_type env mem = (r, m, t) :=
    ⟨_, _, _, rfl⟩
  have hro := readsOnly_get_tag_type env mem
  rw [hg] at hro hg'
  obtain ⟨hmg, -⟩ := hro
  dsimp only at hmg hg'
  rw [hmg] at hg
  subst hg'
  have hcl := clear_tag_locked tt' env mem hlk
  simp only [format_tag, bind_def, Mbind, catchAll, pure_def, Mpure, hg, hcl]

/-- C3 counterexample: a failing clear page write does not abort format_tag
(it still reports success), and a locked tag makes format_tag return False
rather than raising TagLocked to its caller. -/
def envCCOnly : Env :=
  ⟨fun _ => .ok, fun p => if p = 3 then .ok else .sfail, .ok, uid7⟩

theorem format_tag_ignores_clear_failure :
    (clear_tag .NTAG213 envCCOnly memNtag213).1 = .ok false ∧
    (format_tag envCCOnly memNtag213).1 = .ok true ∧
    (clear_tag .NTAG213 (envOk uid7) memLocked).1 = .error .tagLocked ∧
    (format_tag (envOk uid7) memLocked).1 = .ok false :=
  ⟨rfl, rfl, rfl, rfl⟩

/-- C2: against a tag whose lock bits are set, the batch loop takes the
generic write-failed branch — no skip/quit prompt is shown, the UID is
auto-marked failed — because write_data reports plain False for locked
tags. -/
theorem batch_locked_tag_behaviour :
    (is_locked .NTAG213 (envOk uid7) memLocked).1 = .ok true ∧
    (write_data ⟨recW.version, recW.nft_id, recW.offer⟩ false (envOk uid7)
      memLocked).1 = .ok false ∧
    (batchStep [recW] false "" 's' 'r' ⟨[], 0, 0⟩ (envOk uid7)
      memLocked).prompt = .none ∧
    (batchStep [recW] false "" 's' 'r' ⟨[], 0, 0⟩ (envOk uid7) memLocked).ev =
      .wroteFail "04 A1 B2 C3 D4 E5 F6" ∧
    (batchStep [recW] false "" 's' 'r' ⟨[], 0, 0⟩ (envOk uid7) memLocked).bs =
      ⟨["04 A1 B2 C3 D4 E5 F6"], 0, 1⟩ :=
  ⟨rfl, rfl, rfl, rfl, rfl⟩

/-- C6: a generic (non-locked) write failure also takes the silent
write-failed branch — no retry/skip/quit prompt — and the UID is auto-added
to the processed set. -/
theorem batch_write_failure_behaviour :
    (is_locked .NTAG213 envCCOnly memNtag213).1 = .ok false ∧
    (write_data ⟨recW.version, recW.nft_id, recW.offer⟩ false envCCOnly
      memNtag213).1 = .ok false ∧
    (batchStep [recW] false "" 's' 'r' ⟨[], 0, 0⟩ envCCOnly
      memNtag213).prompt = .none ∧
    (batchStep [recW] false "" 's' 'r' ⟨[], 0, 0⟩ envCCOnly memNtag213).ev =
      .wroteFail "04 A1 B2 C3 D4 E5 F6" ∧
    (batchStep [recW] false "" 's' 'r' ⟨[], 0, 0⟩ envCCOnly memNtag213).bs =
      ⟨["04 A1 B2 C3 D4 E5 F6"], 0, 1⟩ :=
  ⟨rfl, rfl, rfl, rfl, rfl⟩

/-- The data-area pages (page 4 and up) read by a trace, in order. The
user-data window starts at page 4 on every supported variant, so these are
exactly the reads the NDEF decode loop performs. -/
def dataPageReads (t : List Ev) : List Nat :=
  t.filterMap fun e =>
    match e with
    | .rd p => if 4 ≤ p then some p else none
    | .wr _ _ => none

/-- Computations that never touch the data area (pages 4 and up). -/
def LowReads {α : Type} (m : M α) : Prop :=
  ∀ env mem, dataPageReads ((m env mem).2.2) = []

theorem lowReads_pure {α : Type} (a : α) : LowReads (Mpure a) := by
  intro env mem
  simp [Mpure, dataPageReads]

theorem lowReads_read_page {p : Nat} (hp : p < 4) : LowReads (read_page p) := by
  intro env mem
  unfold read_page
  cases env.readB p <;> simp [dataPageReads, Nat.not_le.mpr hp]

theorem lowReads_read_tag_uid : LowReads read_tag_uid := by
  intro env mem
  unfold read_tag_uid
  cases env.uidB <;> simp [dataPageReads]

theorem lowReads_bind {α β : Type} {m : M α} {f : α → M β}
    (hm : LowReads m) (hf : ∀ a, LowReads (f a)) : LowReads (Mbind m f) := by
  intro env mem
  have hm1 := hm env mem
  rcases hres : m env mem with ⟨r, mem1, t1⟩
  rw [hres] at hm1
  simp only [Mbind]
  rw [hres]
  cases r with
  | error e => exact hm1
  | ok a =>
      have hf1 := hf a env mem1
      dsimp only at hm1 hf1 ⊢
      simp [dataPageReads, List.filterMap_append] at hm1 hf1 ⊢
      exact ⟨hm1, hf1⟩

theorem lowReads_collectVersionData : LowReads collectVersionData := by
  unfold collectVersionData
  simp only [bind_def, pure_def]
  exact lowReads_bind (lowReads_read_page (by omega)) fun _ =>
    lowReads_bind (lowReads_read_page (by omega)) fun _ =>
      lowReads_bind (lowReads_read_page (by omega)) fun _ => lowReads_pure _

theorem lowReads_ccFallbackType : LowReads ccFallbackType := by
  unfold ccFallbackType
  simp only [bind_def, pure_def]
  refine lowReads_bind (lowReads_read_page (by omega)) fun cc? => ?_
  rcases cc? with _ | cc
  · exact lowReads_pure _
  · dsimp only
    split
    · split
      · exact lowReads_pure _
      · split
        · exact lowReads_pure _
        · split
          · exact lowReads_pure _
          · exact lowReads_pure _
    · exact lowReads_pure _

theorem lowReads_get_tag_type : LowReads get_tag_type := by
  unfold get_tag_type
  simp only [bind_def, pure_def]
  refine lowReads_bind lowReads_read_tag_uid fun uid? => ?_
  rcases uid? with _ | uid
  · exact lowReads_pure _
  · dsimp only
    refine lowReads_bind (lowReads_read_page (by omega)) fun r? => ?_
    rcases r? with _ | r
    · exact lowReads_pure _
    · dsimp only
      split
      · exact lowReads_pure _
      · split
        · refine lowReads_bind lowReads_collectVersionData fun vd => ?_
          dsimp only
          split
          · split
            · exact lowReads_pure _
            · split
              · exact lowReads_pure _
              · split
                · exact lowReads_pure _
                · split
                  · exact lowReads_pure _
                  · exact lowReads_ccFallbackType
          · exact lowReads_ccFallbackType
        · exact lowReads_pure _

/-- Concatenation of `n` consecutive pages starting at `start`. -/
def pagesConcat (mem : Mem) (start : Nat) : Nat → Bytes
  | 0 => []
  | n + 1 => mem start ++ pagesConcat mem (start + 1) n

theorem readPages_ok (env : Env) (hr : ∀ p, env.readB p = .ok) :
    ∀ (n start : Nat) (mem : Mem),
      readPages start n env mem =
        (.ok (some (pagesConcat mem start n)), mem,
          (List.range' start n).map Ev.rd) := by
  intro n
  induction n with
  | zero => intro start mem; rfl
  | succ k ih =>
      intro start mem
      simp only [readPages, bind_def, Mbind, read_page, pure_def, Mpure,
        hr start]
      rw [ih (start + 1) mem]
      simp [pagesConcat, List.range'_succ, Mpure]

theorem dataPageReads_range (s n : Nat) (h : 4 ≤ s) :
    dataPageReads ((List.range' s n).map Ev.rd) = List.range' s n := by
  induction n generalizing s with
  | zero => rfl
  | succ k ih =>
      rw [List.range'_succ]
      simp only [List.map_cons, dataPageReads, List.filterMap_cons]
      rw [if_pos h]
      have := ih (s + 1) (by omega)
      simp only [dataPageReads] at this
      rw [this]

/-- Memory holding a 2-byte NDEF message on an NTAG213-identified tag. -/
def memC8 : Mem := fun p =>
  if p = 0 then [0x04, 1, 2, 3]
  else if p = 1 then [0, 0, 0x0F, 0]
  else if p = 4 then [0x03, 2, 0, 0]
  else [0, 0, 0, 0]

/-- C8 counterexample: after the initial probe of the first data page, the
decode loop re-reads that same first page — its reads are not confined to
pages beyond the first. -/
theorem read_ndef_counterexample :
    dataPageReads ((read_ndef_message (envOk uid7) memC8).2.2) = [4, 4] ∧
    ¬(∀ p ∈ (dataPageReads
        ((read_ndef_message (envOk uid7) memC8).2.2)).tail, 4 < p) := by
  constructor
  · decide
  · decide

/-- Full evaluation of read_ndef_message under a successfully identified
tag: the TLV-tag check, the pages read, and the fixed-offset extraction. -/
theorem read_ndef_eval (env : Env) (mem : Mem) (tt : TagType)
    (hr : ∀ p, env.readB p = .ok)
    (hgtt : (get_tag_type env mem).1 = .ok (some tt)) :
    ((mem 4).getD 0 0 ≠ 0x03 → (read_ndef_message env mem).1 = .ok none) ∧
    ((mem 4).getD 0 0 = 0x03 →
      dataPageReads ((read_ndef_message env mem).2.2) =
        4 :: List.range' 4 (((mem 4).getD 1 0 + 2 + 3) / 4) ∧
      (read_ndef_message env mem).1 =
        .ok ((asciiDecode? (((pagesConcat mem 4
            (((mem 4).getD 1 0 + 2 + 3) / 4)).take
              ((mem 4).getD 1 0 + 2)).drop 9)).map
          fun text =>
            ⟨text.take 5, (text.drop 5).take 62, text.drop 67⟩)) := by
  obtain ⟨rg, memg, tg, hg⟩ : ∃ r m t, get_tag_type env mem = (r, m, t) :=
    ⟨_, _, _, rfl⟩
  have hro := readsOnly_get_tag_type env mem
  have hlow := lowReads_get_tag_type env mem
  rw [hg] at hro hgtt hlow
  obtain ⟨hmg, -⟩ := hro
  dsimp only at hmg hgtt hlow
  rw [hmg] at hg
  subst hgtt
  have hds : (ndefConfig tt).data_start = 4 := by cases tt <;> rfl
  constructor
  · intro hbad
    simp only [List.getD_eq_getElem?_getD] at hbad
    simp [read_ndef_message, catchAll, bind_def, Mbind, pure_def, Mpure,
      Mraise, hg, hds, read_page, hr, hbad]
  · intro hgood
    simp only [read_ndef_message, catchAll, bind_def, Mbind, pure_def, Mpure,
      Mraise, hg, hds, read_page, hr, hgood, ne_eq, reduceIte,
      eq_self_iff_true, not_true, if_false]
    rw [readPages_ok env hr]
    simp only []
    have hrange := dataPageReads_range 4 (((mem 4).getD 1 0 + 2 + 3) / 4)
      (by omega)
    simp only [dataPageReads, List.filterMap_map,
      List.getD_eq_getElem?_getD] at hrange hlow
    rcases hdec : asciiDecode? (((pagesConcat mem 4
        (((mem 4).getD 1 0 + 2 + 3) / 4)).take ((mem 4).getD 1 0 + 2)).drop 9)
      with _ | text
    · simp only [hdec]
      constructor
      · simp [dataPageReads, List.filterMap_append, List.filterMap_cons,
          hlow, hrange, Mraise, Mpure]
      · simp [Mraise, Mpure]
    · simp only [hdec]
      constructor
      · simp [dataPageReads, List.filterMap_append, List.filterMap_cons,
          hlow, hrange, Mraise, Mpure]
      · simp [Mraise, Mpure]

/-- C8 (amended): decode fails when the first data-page byte is not the TLV
tag 0x03; otherwise it reads (msg_length+2+3)/4 pages starting at and
including the first data page (re-reading it), and extracts the payload by
dropping 9 bytes from the raw slice truncated at msg_length+2, splitting
the decoded text at offsets 5 and 67. -/
theorem read_ndef_decode (env : Env) (mem : Mem) (tt : TagType)
    (hr : ∀ p, env.readB p = .ok)
    (hgtt : (get_tag_type env mem).1 = .ok (some tt)) :
    ((mem 4).getD 0 0 ≠ 0x03 → (read_ndef_message env mem).1 = .ok none) ∧
    ((mem 4).getD 0 0 = 0x03 →
      dataPageReads ((read_ndef_message env mem).2.2) =
        4 :: List.range' 4 (((mem 4).getD 1 0 + 2 + 3) / 4) ∧
      (read_ndef_message env mem).1 =
        .ok ((asciiDecode? (((pagesConcat mem 4
            (((mem 4).getD 1 0 + 2 + 3) / 4)).take
              ((mem 4).getD 1 0 + 2)).drop 9)).map
          fun text =>
            ⟨text.take 5, (text.drop 5).take 62, text.drop 67⟩)) :=
  read_ndef_eval env mem tt hr hgtt

/-- Witness for the decode claim: a 2-byte message is decoded after reading
exactly one message page, starting at (and re-reading) the first data
page. -/
theorem read_ndef_decode_witness :
    dataPageReads ((read_ndef_message (envOk uid7) memC8).2.2) =
      4 :: List.range' 4 1 ∧
    (read_ndef_message (envOk uid7) memC8).1 = .ok (some ⟨[], [], []⟩) := by
  have h := (read_ndef_decode (envOk uid7) memC8 .NTAG213
    (fun _ => rfl) rfl).2 rfl
  refine ⟨h.1, ?_⟩
  rw [h.2]
  rfl

/-- Zero-pad a byte string to a whole number of 4-byte pages, as the
chunking loop does to its final chunk. -/
def padTo4 (l : Bytes) : Bytes :=
  l ++ List.replicate ((4 - l.length % 4) % 4) 0

theorem padTo4_cons4 (a b c d : Nat) (rest : Bytes) :
    padTo4 (a :: b :: c :: d :: rest) = a :: b :: c :: d :: padTo4 rest := by
  simp [padTo4, Nat.add_mod_right]
  omega

theorem writeChunks_ok (env : Env) (hw : ∀ p, env.writeB p = .ok) :
    ∀ (fuel : Nat) (rem : Bytes), rem.length ≤ fuel → ∀ (start : Nat) (mem : Mem),
      (writeChunks start rem env mem).1 = .ok true ∧
      ∀ q, (writeChunks start rem env mem).2.1 q =
        if start ≤ q ∧ q < start + (rem.length + 3) / 4 then
          ((padTo4 rem).drop (4 * (q - start))).take 4
        else mem q := by
  intro fuel
  induction fuel with
  | zero =>
      intro rem hlen start mem
      have : rem = [] := List.length_eq_zero.mp (by omega)
      subst this
      refine ⟨rfl, fun q => ?_⟩
      show mem q = _
      rw [if_neg (by simp only [List.length_nil]; omega)]
  | succ n ih =>
      intro rem hlen start mem
      match rem with
      | [] =>
          refine ⟨rfl, fun q => ?_⟩
          show mem q = _
          rw [if_neg (by simp only [List.length_nil]; omega)]
      | [a] =>
          simp only [writeChunks, bind_def, Mbind, write_page, pure_def,
            Mpure, hw start, if_true]
          refine ⟨trivial, fun q => ?_⟩
          by_cases hq : q = start
          · subst hq
            rw [if_pos rfl, if_pos (by simp)]
            simp [padTo4]
          · rw [if_neg hq, if_neg (by simp; omega)]
      | [a, b] =>
          simp only [writeChunks, bind_def, Mbind, write_page, pure_def,
            Mpure, hw start, if_true]
          refine ⟨trivial, fun q => ?_⟩
          by_cases hq : q = start
          · subst hq
            rw [if_pos rfl, if_pos (by simp)]
            simp [padTo4]
          · rw [if_neg hq, if_neg (by simp; omega)]
      | [a, b, c] =>
          simp only [writeChunks, bind_def, Mbind, write_page, pure_def,
            Mpure, hw start, if_true]
          refine ⟨trivial, fun q => ?_⟩
          by_cases hq : q = start
          · subst hq
            rw [if_pos rfl, if_pos (by simp)]
            simp [padTo4]
          · rw [if_neg hq, if_neg (by simp; omega)]
      | a :: b :: c :: d :: rest =>
          simp only [writeChunks, bind_def, Mbind, write_page, pure_def,
            Mpure, hw start, if_true]
          have hrest : rest.length ≤ n := by
            simp at hlen
            omega
          obtain ⟨hres, hmem⟩ := ih rest hrest (start + 1)
            (fun q => if q = start then [a, b, c, d] else mem q)
          rcases hsplit : writeChunks (start + 1) rest env
              (fun q => if q = start then [a, b, c, d] else mem q) with
            ⟨r2, mem2, t2⟩
          rw [hsplit] at hres hmem
          dsimp only at hres hmem
          refine ⟨hres, fun q => ?_⟩
          dsimp only
          rw [hmem q]
          have hlen4 : (a :: b :: c :: d :: rest).length = rest.length + 4 := by
            simp
          rw [hlen4, padTo4_cons4]
          have hdiv : (rest.length + 4 + 3) / 4 = (rest.length + 3) / 4 + 1 := by
            omega
          rw [hdiv]
          by_cases hq1 : start + 1 ≤ q ∧ q < start + 1 + (rest.length + 3) / 4
          · rw [if_pos hq1, if_pos (by omega)]
            have h4 : 4 * (q - start) = 4 + 4 * (q - (start + 1)) := by
              omega
            rw [h4, ← List.drop_drop]
            rfl
          · rw [if_neg hq1]
            by_cases hq : q = start
            · subst hq
              rw [if_pos rfl, if_pos (by omega)]
              simp
            · rw [if_neg hq, if_neg (by omega)]

theorem pagesConcat_eq (m : Mem) :
    ∀ (n : Nat) (P : Bytes) (s : Nat),
      (∀ j, j < n → m (s + j) = (P.drop (4 * j)).take 4) →
      pagesConcat m s n = P.take (4 * n) := by
  intro n
  induction n with
  | zero => intro P s _; rfl
  | succ k ih =>
      intro P s h
      show m s ++ pagesConcat m (s + 1) k = P.take (4 * (k + 1))
      have h0 := h 0 (by omega)
      simp only [Nat.add_zero, Nat.mul_zero, List.drop_zero] at h0
      have hrec := ih (P.drop 4) (s + 1) ?_
      · rw [h0, hrec]
        have : 4 * (k + 1) = 4 + 4 * k := by omega
        rw [this, List.take_add]
      · intro j hj
        have hj1 := h (j + 1) (by omega)
        have harith : s + 1 + j = s + (j + 1) := by omega
        rw [harith, hj1, List.drop_drop]
        have : 4 + 4 * j = 4 * (j + 1) := by omega
        rw [this]

set_option maxHeartbeats 2000000 in
/-- get_tag_type only inspects pages 0 to 3, so its verdict is stable under
any change to the data area. -/
theorem gtt_congr_ok (env : Env) (hu : env.uidB = .ok)
    (hr : ∀ p, env.readB p = .ok) (m1 m2 : Mem)
    (h0 : m1 0 = m2 0) (h1 : m1 1 = m2 1) (h2 : m1 2 = m2 2)
    (h3 : m1 3 = m2 3) :
    (get_tag_type env m1).1 = (get_tag_type env m2).1 := by
  by_cases hlen : env.uid.length = 7
  · by_cases hm : (m2 0)[0]?.getD 0 = 4
    · simp only [get_tag_type, collectVersionData, ccFallbackType,
        read_tag_uid, read_page, bind_def, Mbind, pure_def, Mpure, hu, hr,
        hlen, hm, h0, h1, h2, h3, ne_eq, not_true, if_false,
        eq_self_iff_true, if_true, List.getD_eq_getElem?_getD]
      split_ifs
      all_goals try simp only [bind_def, Mbind, read_page, pure_def, Mpure,
        hr, h3]
      all_goals try split_ifs
      all_goals rfl
    · simp [get_tag_type, read_tag_uid, read_page, bind_def, Mbind, pure_def,
        Mpure, hu, hr, hlen, hm, h0]
  · simp [get_tag_type, read_tag_uid, read_page, bind_def, Mbind, pure_def,
      Mpure, hu, hr, hlen]

/-- C1 (amended): for a valid record whose identifier is exactly 62
characters, or whose offer code is empty (with the identifier at most 62
characters), whose text is ASCII, whose NDEF record length fits the
one-byte length field, and whose TLV fits the variant's payload window,
writing the NDEF message and decoding it back returns the record exactly. -/
theorem ndef_roundtrip (d : NFTDict) (tt : TagType) (env : Env) (mem : Mem)
    (hu : env.uidB = .ok) (hr : ∀ p, env.readB p = .ok)
    (hw : ∀ p, env.writeB p = .ok)
    (hgtt : (get_tag_type env mem).1 = .ok (some tt))
    (hver : d.version.length = 5)
    (hid : d.nft_id.length = 62 ∨ (d.offer = [] ∧ d.nft_id.length ≤ 62))
    (hascii : ∀ c ∈ dataChars d, c.toNat < 128)
    (hmsg : (ndefRecordBytes d).length ≤ 255)
    (hcap : (tlvBytes d).length ≤ (ndefConfig tt).max_size) :
    (write_ndef_message d env mem).1 = .ok true ∧
    (read_ndef_message env (write_ndef_message d env mem).2.1).1 =
      .ok (some d) := by
  have hpayLen : (payloadBytes d).length = (dataChars d).length + 3 := by
    simp [payloadBytes, asciiEncode]
  have hndefLen :
      (ndefRecordBytes d).length = (payloadBytes d).length + 4 := by
    simp [ndefRecordBytes]
  have htlvLen : (tlvBytes d).length = (ndefRecordBytes d).length + 3 := by
    simp [tlvBytes]
  obtain ⟨rg, memg, tg, hg⟩ : ∃ r m t, get_tag_type env mem = (r, m, t) :=
    ⟨_, _, _, rfl⟩
  have hro := readsOnly_get_tag_type env mem
  rw [hg] at hro hgtt
  obtain ⟨hmg, -⟩ := hro
  dsimp only at hmg hgtt
  rw [hmg] at hg
  subst hgtt
  have hds : (ndefConfig tt).data_start = 4 := by cases tt <;> rfl
  have hov : ¬(255 < (payloadBytes d).length ∨
      255 < (ndefRecordBytes d).length) := by omega
  have hcap' : ¬((ndefConfig tt).max_size < (tlvBytes d).length) := by omega
  obtain ⟨rW, memW, tW, hWC⟩ :
      ∃ r m t, writeChunks 4 (tlvBytes d) env mem = (r, m, t) :=
    ⟨_, _, _, rfl⟩
  obtain ⟨hwc1, hwc2⟩ := writeChunks_ok env hw (tlvBytes d).length (tlvBytes d)
    le_rfl 4 mem
  rw [hWC] at hwc1 hwc2
  dsimp only at hwc1 hwc2
  subst hwc1
  have hwrite : write_ndef_message d env mem = (.ok true, memW, tg ++ tW) := by
    simp only [write_ndef_message, catchAll, bind_def, Mbind, pure_def, Mpure,
      Mraise, hg, hds]
    rw [if_neg hov, if_neg hcap', hWC]
  rw [hwrite]
  refine ⟨rfl, ?_⟩
  dsimp only
  have hm03 : ∀ q, q < 4 → memW q = mem q := by
    intro q hq
    rw [hwc2 q, if_neg (by omega)]
  have hgtt2 : (get_tag_type env memW).1 = .ok (some tt) := by
    rw [gtt_congr_ok env hu hr memW mem (hm03 0 (by omega)) (hm03 1 (by omega))
      (hm03 2 (by omega)) (hm03 3 (by omega)), hg]
  have hmem4 : memW 4 =
      [0x03, (ndefRecordBytes d).length, 0xD1, 0x01] := by
    rw [hwc2 4, if_pos ⟨le_refl 4, by omega⟩]
    have h0 : 4 * (4 - 4) = 0 := by omega
    rw [h0, List.drop_zero]
    show (padTo4 (tlvBytes d)).take 4 = _
    rw [padTo4, List.take_append_of_le_length (by omega)]
    simp [tlvBytes, ndefRecordBytes]
  have hm1 : (memW 4).getD 1 0 = (ndefRecordBytes d).length := by
    rw [hmem4]
    rfl
  have hm0 : (memW 4).getD 0 0 = 0x03 := by
    rw [hmem4]
    rfl
  obtain ⟨-, hread⟩ := (read_ndef_eval env memW tt hr hgtt2).2 hm0
  rw [hread, hm1]
  have hpc : pagesConcat memW 4 (((ndefRecordBytes d).length + 2 + 3) / 4) =
      (padTo4 (tlvBytes d)).take
        (4 * (((ndefRecordBytes d).length + 2 + 3) / 4)) := by
    refine pagesConcat_eq memW _ (padTo4 (tlvBytes d)) 4 ?_
    intro j hj
    rw [hwc2 (4 + j), if_pos ⟨by omega, by omega⟩]
    have : 4 * (4 + j - 4) = 4 * j := by omega
    rw [this]
  rw [hpc, List.take_take, Nat.min_eq_left (by omega)]
  have htake2 : (padTo4 (tlvBytes d)).take ((ndefRecordBytes d).length + 2) =
      (tlvBytes d).take ((ndefRecordBytes d).length + 2) := by
    rw [padTo4, List.take_append_of_le_length (by omega)]
  rw [htake2]
  have htlv_split : tlvBytes d =
      ([0x03, (ndefRecordBytes d).length, 0xD1, 0x01, (payloadBytes d).length,
        0x54, 0x02, 0x65, 0x6E] ++ asciiEncode (dataChars d)) ++ [0xFE] := by
    simp [tlvBytes, ndefRecordBytes, payloadBytes]
  have htake3 : (tlvBytes d).take ((ndefRecordBytes d).length + 2) =
      [0x03, (ndefRecordBytes d).length, 0xD1, 0x01, (payloadBytes d).length,
        0x54, 0x02, 0x65, 0x6E] ++ asciiEncode (dataChars d) := by
    rw [htlv_split, List.take_append_of_le_length
      (by simp [asciiEncode]; omega)]
    refine List.take_of_length_le ?_
    simp [asciiEncode]
    omega
  rw [htake3, List.drop_left' (by rfl)]
  have hdec : asciiDecode? (asciiEncode (dataChars d)) =
      some (dataChars d) := by
    rw [asciiDecode?, if_pos]
    · rw [asciiEncode, List.map_map]
      congr 1
      refine List.map_congr_left ?_ |>.trans (List.map_id _)
      intro c _
      exact Char.ofNat_toNat c
    · rw [asciiEncode]
      refine List.all_eq_true.mpr ?_
      intro b hb
      obtain ⟨c, hc, rfl⟩ := List.mem_map.mp hb
      simpa using hascii c hc
  rw [hdec]
  have hsplit3 :
      (⟨(dataChars d).take 5, ((dataChars d).drop 5).take 62,
        (dataChars d).drop 67⟩ : NFTDict) = d := by
    have hd : dataChars d = (d.version ++ d.nft_id) ++ d.offer := by
      simp [dataChars]
    have ht5 : (dataChars d).take 5 = d.version := by
      rw [hd, List.append_assoc, List.take_left' hver]
    have hd5 : (dataChars d).drop 5 = d.nft_id ++ d.offer := by
      rw [hd, List.append_assoc, List.drop_left' hver]
    rcases hid with hid62 | ⟨hoff, hidle⟩
    · have ht62 : ((dataChars d).drop 5).take 62 = d.nft_id := by
        rw [hd5, List.take_left' hid62]
      have hd67 : (dataChars d).drop 67 = d.offer := by
        rw [hd, List.drop_left' (by simp [hver, hid62])]
      rw [ht5, ht62, hd67]
    · have ht62 : ((dataChars d).drop 5).take 62 = d.nft_id := by
        rw [hd5, hoff, List.append_nil]
        exact List.take_of_length_le hidle
      have hd67 : (dataChars d).drop 67 = d.offer := by
        rw [hd, hoff, List.append_nil]
        refine List.drop_eq_nil_of_le ?_
        simp [hver]
        omega
      rw [ht5, ht62, hd67]
  simp only [Option.map_some']
  rw [hsplit3]

set_option maxRecDepth 20000 in
/-- C1 counterexample, both failure modes of the original claim. First: a
record with a 1-character identifier and a 2-character offer code survives
the write but decodes with the offer characters absorbed into the
identifier, because decode splits at the fixed offsets 5 and 67. Second: a
record with a 62-character identifier and a 300-character offer code has a
TLV within the NTAG21x_2A max payload of 1016 bytes, yet the write fails
(returns False), because its NDEF record length exceeds the one-byte length
field's limit of 255 and the Python bytes() call raises. -/
theorem roundtrip_counterexample :
    ((write_ndef_message ⟨['D', 'T', '0', '0', '1'], ['a'], ['B', 'C']⟩
        (envOk uid7) memNtag213).1 = .ok true ∧
      (read_ndef_message (envOk uid7)
          (write_ndef_message ⟨['D', 'T', '0', '0', '1'], ['a'], ['B', 'C']⟩
            (envOk uid7) memNtag213).2.1).1 =
        .ok (some ⟨['D', 'T', '0', '0', '1'], ['a', 'B', 'C'], []⟩) ∧
      (⟨['D', 'T', '0', '0', '1'], ['a', 'B', 'C'], []⟩ : NFTDict) ≠
        ⟨['D', 'T', '0', '0', '1'], ['a'], ['B', 'C']⟩) ∧
    ((tlvBytes ⟨['D', 'T', '0', '0', '1'], List.replicate 62 'n',
        List.replicate 300 'o'⟩).length ≤
        (ndefConfig .NTAG21x_2A).max_size ∧
      255 < (ndefRecordBytes ⟨['D', 'T', '0', '0', '1'],
        List.replicate 62 'n', List.replicate 300 'o'⟩).length ∧
      (get_tag_type (envOk uid7) memCC2A).1 = .ok (some .NTAG21x_2A) ∧
      (write_ndef_message ⟨['D', 'T', '0', '0', '1'], List.replicate 62 'n',
        List.replicate 300 'o'⟩ (envOk uid7) memCC2A).1 = .ok false) :=
  ⟨⟨rfl, rfl, by decide⟩, ⟨by decide, by decide, rfl, rfl⟩⟩

/-- Witness for the amended round-trip claim: a record with a 62-character
identifier round-trips exactly, and so does a record with a 1-character
identifier and an empty offer code. -/
theorem ndef_roundtrip_witness :
    ((write_ndef_message
        ⟨['D', 'T', '0', '0', '1'], List.replicate 62 'n', ['o', 'k']⟩
        (envOk uid7) memNtag213).1 = .ok true ∧
      (read_ndef_message (envOk uid7)
          (write_ndef_message
            ⟨['D', 'T', '0', '0', '1'], List.replicate 62 'n', ['o', 'k']⟩
            (envOk uid7) memNtag213).2.1).1 =
        .ok (some ⟨['D', 'T', '0', '0', '1'], List.replicate 62 'n',
          ['o', 'k']⟩)) ∧
    ((write_ndef_message ⟨['D', 'T', '0', '0', '1'], ['a'], []⟩
        (envOk uid7) memNtag213).1 = .ok true ∧
      (read_ndef_message (envOk uid7)
          (write_ndef_message ⟨['D', 'T', '0', '0', '1'], ['a'], []⟩
            (envOk uid7) memNtag213).2.1).1 =
        .ok (some ⟨['D', 'T', '0', '0', '1'], ['a'], []⟩)) :=
  ⟨ndef_roundtrip
      ⟨['D', 'T', '0', '0', '1'], List.replicate 62 'n', ['o', 'k']⟩
      .NTAG213 (envOk uid7) memNtag213 rfl (fun _ => rfl) (fun _ => rfl) rfl
      (by decide) (Or.inl (by decide)) (by decide) (by decide) (by decide),
    ndef_roundtrip ⟨['D', 'T', '0', '0', '1'], ['a'], []⟩
      .NTAG213 (envOk uid7) memNtag213 rfl (fun _ => rfl) (fun _ => rfl) rfl
      (by decide) (Or.inr ⟨rfl, by decide⟩) (by decide) (by decide)
      (by decide)⟩

/-- Witness for the format/clear claim: a locked tag makes clear_tag raise
and format_tag report False; on an unlocked tag with a healthy transport,
clearing succeeds. -/
theorem format_clear_behaviour_witness :
    clear_tag .NTAG213 (envOk uid7) memLocked =
      (.error .tagLocked, (is_locked .NTAG213 (envOk uid7) memLocked).2.1,
        (is_locked .NTAG213 (envOk uid7) memLocked).2.2) ∧
    (format_tag (envOk uid7) memLocked).1 = .ok false ∧
    (clear_tag .NTAG213 (envOk uid7) memNtag213).1 = .ok true :=
  ⟨(format_clear_behaviour .NTAG213 (envOk uid7) memLocked).1 rfl,
    (format_clear_behaviour .NTAG213 (envOk uid7) memLocked).2.2 .NTAG213
      rfl rfl,
    ((format_clear_behaviour .NTAG213 (envOk uid7) memNtag213).2.1 rfl).mpr
      fun _ _ => rfl⟩

end NfcOffer
